import Mathlib

/-!
A shallow embedding of `acstore/profilers.py`: the `CPUTimeMeasurement`
dual-clock timing primitive and the `StorageProfiler` that serializes
samples to a compressed tab-separated text stream.

Modelling choices:
* Python floats (clock readings, accumulated times) are modelled as `ℚ`.
* The two clocks (`time.perf_counter()` and `time.time()`) are injected
  explicitly: every operation that reads a clock takes the reading as an
  argument.
* The Python dict `_profile_measurements` is modelled as an association
  list with Python-dict update semantics (update in place, insert at the
  end).
* The gzip sample file is modelled as the list of strings written to it
  (gzip compression and UTF-8 encoding are injective on the content, so
  claims about the decompressed decoded file are claims about this list).
* Python attribute values that start out as `None` are `Option ℚ`.
* Operations that can raise (`AttributeError` on a `None` stream,
  `TypeError` when formatting `None`) return `Option`, `none` meaning the
  call raises.
-/

namespace AcStore

/-- Model of `CPUTimeMeasurement.__init__`: all three attributes start as
`None`.  `start_cpu_time` models the private `_start_cpu_time`. -/
structure CPUTimeMeasurement where
  start_cpu_time : Option ℚ
  start_sample_time : Option ℚ
  total_cpu_time : Option ℚ
deriving DecidableEq

namespace CPUTimeMeasurement

/-- The freshly constructed measurement, `CPUTimeMeasurement()`. -/
def init : CPUTimeMeasurement := ⟨none, none, none⟩

/-- Model of `CPUTimeMeasurement.SampleStart`: records the monotonic clock
reading `now_perf` (`time.perf_counter()`), the wall clock reading
`now_wall` (`time.time()`), and resets `total_cpu_time` to `0`. -/
def SampleStart (_m : CPUTimeMeasurement) (now_perf now_wall : ℚ) :
    CPUTimeMeasurement :=
  ⟨some now_perf, some now_wall, some 0⟩

/-- Model of `CPUTimeMeasurement.SampleStop`: if `_start_cpu_time` is not
`None`, adds `now_perf - _start_cpu_time` to `total_cpu_time`.  Adding to
a `None` `total_cpu_time` would raise `TypeError`, modelled as `none`
(unreachable from the constructor-plus-methods interface, see the
invariant theorems). -/
def SampleStop (m : CPUTimeMeasurement) (now_perf : ℚ) :
    Option CPUTimeMeasurement :=
  match m.start_cpu_time with
  | none => some m
  | some s =>
    match m.total_cpu_time with
    | none => none
    | some t => some { m with total_cpu_time := some (t + (now_perf - s)) }

end CPUTimeMeasurement

/-- Lookup in the measurements dict, `dict.get(k)`. -/
def lookupM : List (String × CPUTimeMeasurement) → String →
    Option CPUTimeMeasurement
  | [], _ => none
  | (k, v) :: rest, key => if k = key then some v else lookupM rest key

/-- Store into the measurements dict, `d[k] = v` (update in place when the
key is present, append otherwise, as a Python dict does). -/
def insertM : List (String × CPUTimeMeasurement) → String →
    CPUTimeMeasurement → List (String × CPUTimeMeasurement)
  | [], key, v => [(key, v)]
  | (k, v') :: rest, key, v =>
    if k = key then (key, v) :: rest else (k, v') :: insertM rest key v

/-- Model of `StorageProfiler.__init__` state: identifier, output path,
measurements dict, sample file and start time.  `sample_file` is
`some contents` between `Start` and `Stop` and `none` otherwise, where
`contents` is the list of strings written so far. -/
structure StorageProfiler where
  identifier : String
  path : String
  profile_measurements : List (String × CPUTimeMeasurement)
  sample_file : Option (List String)
  start_time : Option ℚ
deriving DecidableEq

namespace StorageProfiler

/-- A freshly constructed profiler. -/
def init (identifier path : String) : StorageProfiler :=
  ⟨identifier, path, [], none, none⟩

/-- Model of `StorageProfiler._FILE_HEADER`. -/
def FILE_HEADER : String :=
  "Time\tName\tOperation\tDescription\tProcessing time\tData size\tCompressed data size\n"

/-- The sample filename built by `Start` from `_FILENAME_PREFIX` and the
identifier: `storage-<identifier>.csv.gz`, joined with the path when
non-empty. -/
def sampleFilename (p : StorageProfiler) : String :=
  let filename := "storage" ++ "-" ++ p.identifier ++ ".csv.gz"
  if p.path = "" then filename else p.path ++ "/" ++ filename

/-- Model of `StorageProfiler._WritesString`: encodes `content` as UTF-8
and writes it to the sample file; raises (`none`) when the sample file is
`None`. -/
def WritesString (p : StorageProfiler) (content : String) :
    Option StorageProfiler :=
  p.sample_file.map fun c => { p with sample_file := some (c ++ [content]) }

/-- Model of `StorageProfiler.IsSupported`. -/
def IsSupported : Bool := true

/-- Decimal digits of a natural number as characters, fuel-driven so the
kernel can evaluate it. -/
def natDigits : Nat → Nat → List Char
  | 0, _ => []
  | fuel + 1, n =>
    if n < 10 then [Char.ofNat (48 + n)]
    else natDigits fuel (n / 10) ++ [Char.ofNat (48 + n % 10)]

/-- Decimal string of a natural number. -/
def natStr (n : Nat) : String := ⟨natDigits (n + 1) n⟩

/-- Model of Python `'{0:d}'.format(i)` for an int. -/
def formatInt (i : Int) : String :=
  (if i < 0 then "-" else "") ++ natStr i.natAbs

/-- Model of Python `'{0:f}'.format(q)`: fixed-point notation with six
fractional digits (the fractional digits obtained by truncating
`|q| * 10^6`). -/
def formatFixed6 (q : ℚ) : String :=
  let a : ℚ := |q| * 1000000
  let m : Nat := (a.num / (a.den : Int)).toNat
  (if q < 0 then "-" else "") ++ natStr (m / 1000000) ++ "." ++
    ⟨List.replicate (6 - (natDigits (m % 1000000 + 1) (m % 1000000)).length) '0'⟩ ++
    natStr (m % 1000000)

/-- Joins the seven fields with tabs, as the format string
`'\x7b0:f\x7d\t\x7b1:s\x7d\t...'` of `Sample` does. -/
def tabJoin : List String → String
  | [] => ""
  | [s] => s
  | s :: rest => s ++ "\t" ++ tabJoin rest

/-- The sample line built by `StorageProfiler.Sample`. -/
def formatSample (sample_time : ℚ) (profile_name operation description : String)
    (processing_time : ℚ) (data_size compressed_data_size : Int) : String :=
  tabJoin [formatFixed6 sample_time, profile_name, operation, description,
    formatFixed6 processing_time, formatInt data_size,
    formatInt compressed_data_size] ++ "\n"

/-- Model of `StorageProfiler.Sample`: takes a sample.  When
`profile_name` has a measurement its `start_sample_time` and
`total_cpu_time` are used, otherwise the current wall clock `now_wall` and
`0.0`; one formatted line is written to the sample file.  `none` models a
raised exception (`TypeError` when a used measurement attribute is `None`,
`AttributeError` when the sample file is `None`). -/
def Sample (p : StorageProfiler) (profile_name operation description : String)
    (data_size compressed_data_size : Int) (now_wall : ℚ) :
    Option StorageProfiler :=
  let vals : Option (ℚ × ℚ) :=
    match lookupM p.profile_measurements profile_name with
    | some m =>
      match m.start_sample_time, m.total_cpu_time with
      | some st, some tc => some (st, tc)
      | _, _ => none
    | none => some (now_wall, 0)
  match vals with
  | none => none
  | some (st, tc) =>
    p.WritesString (formatSample st profile_name operation description tc
      data_size compressed_data_size)

/-- Model of `StorageProfiler.Start`: opens the sample file, writes the
header and records the wall-clock start time `now_wall`. -/
def Start (p : StorageProfiler) (now_wall : ℚ) : StorageProfiler :=
  { p with sample_file := some [FILE_HEADER], start_time := some now_wall }

/-- Model of `StorageProfiler.StartTiming`: inserts a fresh measurement
when `profile_name` is absent, then calls `SampleStart` on the stored
measurement with the clock readings `now_perf` and `now_wall`. -/
def StartTiming (p : StorageProfiler) (profile_name : String)
    (now_perf now_wall : ℚ) : StorageProfiler :=
  let m :=
    match lookupM p.profile_measurements profile_name with
    | some m => m
    | none => CPUTimeMeasurement.init
  { p with profile_measurements :=
      (insertM p.profile_measurements profile_name
        (m.SampleStart now_perf now_wall)) }

/-- Model of `StorageProfiler.Stop`: closes the sample file and clears the
reference; returns the stopped profiler together with the content of the
closed file.  `none` models the `AttributeError` of `None.close()`. -/
def Stop (p : StorageProfiler) : Option (StorageProfiler × List String) :=
  p.sample_file.map fun c => ({ p with sample_file := none }, c)

/-- Model of `StorageProfiler.StopTiming`: calls `SampleStop` on the
measurement of `profile_name` when present, silent no-op otherwise. -/
def StopTiming (p : StorageProfiler) (profile_name : String)
    (now_perf : ℚ) : Option StorageProfiler :=
  match lookupM p.profile_measurements profile_name with
  | none => some p
  | some m =>
    (m.SampleStop now_perf).map fun m' =>
      { p with profile_measurements :=
          (insertM p.profile_measurements profile_name m') }

end StorageProfiler

/-- One call to the profiler's public interface, clock readings included. -/
inductive Op where
  | start (now_wall : ℚ)
  | startTiming (name : String) (now_perf now_wall : ℚ)
  | stopTiming (name : String) (now_perf : ℚ)
  | sample (name operation description : String)
      (data_size compressed_data_size : Int) (now_wall : ℚ)
  | stop
deriving DecidableEq

/-- One step of the profiler; `none` when the call raises. -/
def step (p : StorageProfiler) : Op → Option StorageProfiler
  | Op.start w => some (p.Start w)
  | Op.startTiming n sp sw => some (p.StartTiming n sp sw)
  | Op.stopTiming n sp => p.StopTiming n sp
  | Op.sample n oper desc ds cds w => p.Sample n oper desc ds cds w
  | Op.stop => (p.Stop).map Prod.fst

/-- Runs a sequence of calls, stopping at the first raised exception. -/
def run (p : StorageProfiler) : List Op → Option StorageProfiler
  | [] => some p
  | o :: os => (step p o).bind fun p' => run p' os

/-- A measurement whose three attributes have all been set by a
`SampleStart` (none of them is the initial `None`). -/
def measOK (m : CPUTimeMeasurement) : Prop :=
  m.start_cpu_time.isSome ∧ m.start_sample_time.isSome ∧
    m.total_cpu_time.isSome

/-- Every measurement stored in the profiler's dict has all attributes
set. -/
def stateOK (p : StorageProfiler) : Prop :=
  ∀ n m, lookupM p.profile_measurements n = some m → measOK m

/-- Arguments of one `Sample` call, wall-clock reading included. -/
structure SampleCall where
  name : String
  operation : String
  description : String
  data_size : Int
  compressed_data_size : Int
  now_wall : ℚ
deriving DecidableEq

/-- The operation sequence of a list of `Sample` calls. -/
def sampleOps (calls : List SampleCall) : List Op :=
  calls.map fun a =>
    Op.sample a.name a.operation a.description a.data_size
      a.compressed_data_size a.now_wall

/-- The operation sequence of a list of `Sample` calls all using the same
profile name `n` (the per-call `name` field is ignored). -/
def sampleOpsFor (n : String) (calls : List SampleCall) : List Op :=
  calls.map fun a =>
    Op.sample n a.operation a.description a.data_size
      a.compressed_data_size a.now_wall

/-- The operation sequence of `k` repetitions of
`StartTiming(n); StopTiming(n)`, one triple
`(now_perf at start, now_wall at start, now_perf at stop)` per
repetition. -/
def startStopTrace (n : String) : List (ℚ × ℚ × ℚ) → List Op
  | [] => []
  | (s, w, t) :: rest =>
    Op.startTiming n s w :: Op.stopTiming n t :: startStopTrace n rest

/-- The operation sequence of repeated `StopTiming(n)` calls, one
monotonic clock reading per call. -/
def stopsTrace (n : String) (ts : List ℚ) : List Op :=
  ts.map (Op.stopTiming n)

/-- A whole session, `Start()` then the `Sample` calls then `Stop()`;
returns the content of the closed sample file. -/
def session (identifier path : String) (start_wall : ℚ)
    (calls : List SampleCall) : Option (List String) :=
  (run ((StorageProfiler.init identifier path).Start start_wall)
      (sampleOps calls)).bind
    fun p => (p.Stop).map Prod.snd

/-- The line `Sample` emits for a call whose profile name has no
measurement. -/
def untimedLine (a : SampleCall) : String :=
  StorageProfiler.formatSample a.now_wall a.name a.operation a.description
    0 a.data_size a.compressed_data_size

/-- The characters of the decompressed, decoded sample file. -/
def fileChars (contents : List String) : List Char :=
  (contents.map String.data).flatten

/-- Splits a character list at a separator; a list with `k` separators
yields `k + 1` chunks. -/
def splitCh (sep : Char) : List Char → List (List Char)
  | [] => [[]]
  | c :: cs =>
    if c = sep then [] :: splitCh sep cs
    else
      match splitCh sep cs with
      | [] => [[c]]
      | f :: rest => (c :: f) :: rest

/-- A string containing neither a tab nor a newline character. -/
def TabNlFree (s : String) : Prop :=
  '\t' ∉ s.data ∧ '\n' ∉ s.data

/-- The fixed header line, without its terminating newline. -/
def headerLine : String :=
  "Time\tName\tOperation\tDescription\tProcessing time\tData size\tCompressed data size"

/-- The seven fields of the line emitted for an untimed `Sample` call. -/
def sampleFields (a : SampleCall) : List String :=
  [StorageProfiler.formatFixed6 a.now_wall, a.name, a.operation,
   a.description, StorageProfiler.formatFixed6 0,
   StorageProfiler.formatInt a.data_size,
   StorageProfiler.formatInt a.compressed_data_size]

/-- The characters of an untimed sample line, without its newline. -/
def lineBody (a : SampleCall) : List Char :=
  (StorageProfiler.tabJoin (sampleFields a)).data

end AcStore

namespace AcStore

theorem lookupM_insertM_self (l : List (String × CPUTimeMeasurement))
    (k : String) (v : CPUTimeMeasurement) :
    lookupM (insertM l k v) k = some v := by
  induction l with
  | nil => simp [insertM, lookupM]
  | cons hd tl ih =>
    obtain ⟨k', v'⟩ := hd
    by_cases h : k' = k
    · simp [insertM, lookupM, h]
    · simp [insertM, lookupM, h, ih]

theorem lookupM_insertM_ne (l : List (String × CPUTimeMeasurement))
    (k k' : String) (v : CPUTimeMeasurement) (h : k' ≠ k) :
    lookupM (insertM l k v) k' = lookupM l k' := by
  have hkk : k ≠ k' := Ne.symm h
  induction l with
  | nil => simp [insertM, lookupM, hkk]
  | cons hd tl ih =>
    obtain ⟨k0, v0⟩ := hd
    by_cases h0 : k0 = k
    · subst h0
      simp [insertM, lookupM, hkk]
    · simp [insertM, lookupM, h0, ih]

theorem SampleStart_eq (m : CPUTimeMeasurement) (sp sw : ℚ) :
    m.SampleStart sp sw = ⟨some sp, some sw, some 0⟩ := rfl

theorem StartTiming_measurements (p : StorageProfiler) (n : String)
    (sp sw : ℚ) :
    (p.StartTiming n sp sw).profile_measurements =
      insertM p.profile_measurements n ⟨some sp, some sw, some 0⟩ := by
  unfold StorageProfiler.StartTiming
  cases lookupM p.profile_measurements n <;> rfl

theorem StartTiming_sample_file (p : StorageProfiler) (n : String)
    (sp sw : ℚ) : (p.StartTiming n sp sw).sample_file = p.sample_file := rfl

theorem StartTiming_lookup_self (p : StorageProfiler) (n : String)
    (sp sw : ℚ) :
    lookupM (p.StartTiming n sp sw).profile_measurements n =
      some ⟨some sp, some sw, some 0⟩ := by
  rw [StartTiming_measurements, lookupM_insertM_self]

theorem StartTiming_lookup_ne (p : StorageProfiler) (n k : String)
    (sp sw : ℚ) (h : k ≠ n) :
    lookupM (p.StartTiming n sp sw).profile_measurements k =
      lookupM p.profile_measurements k := by
  rw [StartTiming_measurements, lookupM_insertM_ne _ _ _ _ h]

theorem SampleStop_of_start_none (m : CPUTimeMeasurement) (t : ℚ)
    (h : m.start_cpu_time = none) : m.SampleStop t = some m := by
  unfold CPUTimeMeasurement.SampleStop
  rw [h]

theorem SampleStop_of_set (s w tc t : ℚ) :
    CPUTimeMeasurement.SampleStop ⟨some s, some w, some tc⟩ t =
      some ⟨some s, some w, some (tc + (t - s))⟩ := rfl

theorem StopTiming_of_absent (p : StorageProfiler) (n : String) (t : ℚ)
    (h : lookupM p.profile_measurements n = none) :
    p.StopTiming n t = some p := by
  unfold StorageProfiler.StopTiming
  rw [h]

theorem StopTiming_of_set (p : StorageProfiler) (n : String)
    (s w tc t : ℚ)
    (h : lookupM p.profile_measurements n = some ⟨some s, some w, some tc⟩) :
    p.StopTiming n t =
      some { p with profile_measurements :=
        (insertM p.profile_measurements n
          ⟨some s, some w, some (tc + (t - s))⟩) } := by
  unfold StorageProfiler.StopTiming
  rw [h]
  rfl

end AcStore

namespace AcStore

theorem Sample_timed (p : StorageProfiler) (n oper desc : String)
    (ds cds : Int) (w : ℚ) (c : List String) (m : CPUTimeMeasurement)
    (st tc : ℚ) (hf : p.sample_file = some c)
    (hm : lookupM p.profile_measurements n = some m)
    (hst : m.start_sample_time = some st)
    (htc : m.total_cpu_time = some tc) :
    p.Sample n oper desc ds cds w =
      some { p with sample_file :=
        (some (c ++ [StorageProfiler.formatSample st n oper desc tc ds cds])) } := by
  obtain ⟨ms, mst, mtc⟩ := m
  simp only at hst htc
  subst hst
  subst htc
  unfold StorageProfiler.Sample StorageProfiler.WritesString
  rw [hm, hf]
  rfl

theorem Sample_untimed (p : StorageProfiler) (n oper desc : String)
    (ds cds : Int) (w : ℚ) (c : List String)
    (hf : p.sample_file = some c)
    (hm : lookupM p.profile_measurements n = none) :
    p.Sample n oper desc ds cds w =
      some { p with sample_file :=
        (some (c ++ [StorageProfiler.formatSample w n oper desc 0 ds cds])) } := by
  unfold StorageProfiler.Sample StorageProfiler.WritesString
  rw [hm, hf]
  rfl

theorem Sample_closed (p : StorageProfiler) (n oper desc : String)
    (ds cds : Int) (w : ℚ) (hf : p.sample_file = none) :
    p.Sample n oper desc ds cds w = none := by
  unfold StorageProfiler.Sample StorageProfiler.WritesString
  rw [hf]
  cases hm : lookupM p.profile_measurements n with
  | none => rfl
  | some m =>
    obtain ⟨ms, mst, mtc⟩ := m
    cases mst <;> cases mtc <;> rfl

theorem Sample_some_inv (p p' : StorageProfiler) (n oper desc : String)
    (ds cds : Int) (w : ℚ) (h : p.Sample n oper desc ds cds w = some p') :
    ∃ c line, p.sample_file = some c ∧
      p' = { p with sample_file := some (c ++ [line]) } := by
  unfold StorageProfiler.Sample StorageProfiler.WritesString at h
  cases hf : p.sample_file with
  | none =>
    rw [hf] at h
    cases hm : lookupM p.profile_measurements n with
    | none =>
      rw [hm] at h
      exact absurd h (by simp)
    | some m =>
      rw [hm] at h
      obtain ⟨ms, mst, mtc⟩ := m
      cases mst <;> cases mtc <;> exact absurd h (by simp)
  | some c =>
    rw [hf] at h
    cases hm : lookupM p.profile_measurements n with
    | none =>
      rw [hm] at h
      exact ⟨c, StorageProfiler.formatSample w n oper desc 0 ds cds, rfl,
        (Option.some.inj h).symm⟩
    | some m =>
      rw [hm] at h
      obtain ⟨ms, mst, mtc⟩ := m
      cases mst with
      | none => exact absurd h (by simp)
      | some st =>
        cases mtc with
        | none => exact absurd h (by simp)
        | some tc =>
          exact ⟨c, StorageProfiler.formatSample st n oper desc tc ds cds, rfl,
            (Option.some.inj h).symm⟩

theorem run_append (p : StorageProfiler) (a b : List Op) :
    run p (a ++ b) = (run p a).bind fun q => run q b := by
  induction a generalizing p with
  | nil => simp [run]
  | cons o os ih =>
    simp only [List.cons_append, run]
    cases step p o with
    | none => rfl
    | some q => simp [ih]

theorem measOK_SampleStart (m : CPUTimeMeasurement) (sp sw : ℚ) :
    measOK (m.SampleStart sp sw) := by
  unfold measOK CPUTimeMeasurement.SampleStart
  exact ⟨rfl, rfl, rfl⟩

theorem measOK_SampleStop (m m' : CPUTimeMeasurement) (t : ℚ)
    (h : measOK m) (h' : m.SampleStop t = some m') : measOK m' := by
  obtain ⟨h1, h2, h3⟩ := h
  obtain ⟨ms, mst, mtc⟩ := m
  simp only at h1 h2 h3
  obtain ⟨s, rfl⟩ := Option.isSome_iff_exists.mp h1
  obtain ⟨w0, rfl⟩ := Option.isSome_iff_exists.mp h2
  obtain ⟨tc0, rfl⟩ := Option.isSome_iff_exists.mp h3
  have he := Option.some.inj h'
  subst he
  exact ⟨rfl, rfl, rfl⟩

theorem stateOK_insert (l : List (String × CPUTimeMeasurement))
    (k : String) (v : CPUTimeMeasurement)
    (hl : ∀ n m, lookupM l n = some m → measOK m) (hv : measOK v) :
    ∀ n m, lookupM (insertM l k v) n = some m → measOK m := by
  intro n m hm
  by_cases h : n = k
  · subst h
    rw [lookupM_insertM_self] at hm
    cases hm
    exact hv
  · rw [lookupM_insertM_ne _ _ _ _ h] at hm
    exact hl n m hm

theorem step_stateOK (p p' : StorageProfiler) (o : Op)
    (hp : stateOK p) (h : step p o = some p') : stateOK p' := by
  cases o with
  | start w =>
    cases h
    exact hp
  | startTiming n sp sw =>
    cases h
    intro k m hm
    rw [StartTiming_measurements] at hm
    exact stateOK_insert _ _ _ hp
      (measOK_SampleStart CPUTimeMeasurement.init sp sw) k m hm
  | stopTiming n sp =>
    simp only [step] at h
    cases hm : lookupM p.profile_measurements n with
    | none =>
      rw [StopTiming_of_absent p n sp hm] at h
      have he := Option.some.inj h
      subst he
      exact hp
    | some m =>
      obtain ⟨h1, h2, h3⟩ := hp n m hm
      obtain ⟨ms, mst, mtc⟩ := m
      simp only at h1 h2 h3
      obtain ⟨s, rfl⟩ := Option.isSome_iff_exists.mp h1
      obtain ⟨w0, rfl⟩ := Option.isSome_iff_exists.mp h2
      obtain ⟨tc0, rfl⟩ := Option.isSome_iff_exists.mp h3
      rw [StopTiming_of_set p n s w0 tc0 sp hm] at h
      have he := Option.some.inj h
      subst he
      intro k m2 hm2
      simp only at hm2
      exact stateOK_insert _ n ⟨some s, some w0, some (tc0 + (sp - s))⟩ hp
        (by unfold measOK; exact ⟨rfl, rfl, rfl⟩) k m2 hm2
  | sample n oper desc ds cds w =>
    simp only [step] at h
    obtain ⟨c, line, hc, hp'⟩ := Sample_some_inv p p' n oper desc ds cds w h
    subst hp'
    exact hp
  | stop =>
    simp only [step, StorageProfiler.Stop] at h
    cases hf : p.sample_file with
    | none =>
      rw [hf] at h
      exact absurd h (by simp)
    | some c =>
      rw [hf] at h
      have he := Option.some.inj h
      subst he
      exact hp

theorem run_stateOK (ops : List Op) (p p' : StorageProfiler)
    (hp : stateOK p) (h : run p ops = some p') : stateOK p' := by
  induction ops generalizing p with
  | nil =>
    cases h
    exact hp
  | cons o os ih =>
    simp only [run] at h
    cases hs : step p o with
    | none =>
      rw [hs] at h
      exact absurd h (by simp)
    | some q =>
      rw [hs] at h
      exact ih q (step_stateOK p q o hp hs) h

theorem stateOK_init (identifier path : String) :
    stateOK (StorageProfiler.init identifier path) := by
  intro n m hm
  simp [StorageProfiler.init, lookupM] at hm

end AcStore

namespace AcStore

theorem run_stopsTrace (ts : List ℚ) (p : StorageProfiler) (n : String)
    (s w tc : ℚ)
    (hm : lookupM p.profile_measurements n = some ⟨some s, some w, some tc⟩) :
    ∃ p', run p (stopsTrace n ts) = some p' ∧
      lookupM p'.profile_measurements n =
        some ⟨some s, some w, some (tc + ((ts.map fun t => t - s).sum))⟩ := by
  induction ts generalizing p tc with
  | nil =>
    refine ⟨p, rfl, ?_⟩
    rw [hm]
    simp
  | cons t ts ih =>
    have hstep := StopTiming_of_set p n s w tc t hm
    obtain ⟨p', hrun, hl⟩ := ih
      { p with profile_measurements :=
        (insertM p.profile_measurements n
          ⟨some s, some w, some (tc + (t - s))⟩) }
      (tc + (t - s)) (lookupM_insertM_self _ _ _)
    refine ⟨p', ?_, ?_⟩
    · simp only [stopsTrace, List.map_cons] at hrun ⊢
      simp only [run, step, hstep, Option.some_bind]
      exact hrun
    · have harith : tc + (t - s) + ((ts.map fun u => u - s).sum) =
          tc + (((t :: ts).map fun u => u - s).sum) := by
        simp only [List.map_cons, List.sum_cons]
        ring
      rw [hl, harith]

theorem run_startStopTrace (l : List (ℚ × ℚ × ℚ)) (x : ℚ × ℚ × ℚ)
    (p : StorageProfiler) (n : String) :
    ∃ p', run p (startStopTrace n (x :: l)) = some p' ∧
      lookupM p'.profile_measurements n =
        some ⟨some (l.getLastD x).1, some (l.getLastD x).2.1,
          some ((l.getLastD x).2.2 - (l.getLastD x).1)⟩ := by
  induction l generalizing p x with
  | nil =>
    obtain ⟨s, w, t⟩ := x
    have h1 := StartTiming_lookup_self p n s w
    have h2 := StopTiming_of_set (p.StartTiming n s w) n s w 0 t h1
    refine ⟨{ p.StartTiming n s w with profile_measurements :=
      (insertM (p.StartTiming n s w).profile_measurements n
        ⟨some s, some w, some (0 + (t - s))⟩) }, ?_, ?_⟩
    · simp only [startStopTrace, run, step, Option.some_bind, h2]
    · have h3 := lookupM_insertM_self
        (p.StartTiming n s w).profile_measurements n
        ⟨some s, some w, some (0 + (t - s))⟩
      simp only [List.getLastD]
      rw [h3]
      simp
  | cons y l ih =>
    obtain ⟨s, w, t⟩ := x
    obtain ⟨s2, w2, t2⟩ := y
    have h1 := StartTiming_lookup_self p n s w
    have h2 := StopTiming_of_set (p.StartTiming n s w) n s w 0 t h1
    obtain ⟨p', hrun, hl⟩ := ih (s2, w2, t2)
      { p.StartTiming n s w with profile_measurements :=
        (insertM (p.StartTiming n s w).profile_measurements n
          ⟨some s, some w, some (0 + (t - s))⟩) }
    refine ⟨p', ?_, ?_⟩
    · simp only [startStopTrace, run, step, Option.some_bind] at hrun ⊢
      rw [h2]
      simp only [Option.some_bind]
      exact hrun
    · rw [List.getLastD_cons]
      exact hl

end AcStore

namespace AcStore

theorem run_sampleOpsFor (l : List SampleCall) (p : StorageProfiler)
    (n : String) (c : List String) (m : CPUTimeMeasurement) (st tc : ℚ)
    (hf : p.sample_file = some c)
    (hm : lookupM p.profile_measurements n = some m)
    (hst : m.start_sample_time = some st)
    (htc : m.total_cpu_time = some tc) :
    run p (sampleOpsFor n l) =
      some { p with sample_file :=
        (some (c ++ l.map fun a =>
          StorageProfiler.formatSample st n a.operation a.description tc
            a.data_size a.compressed_data_size)) } := by
  induction l generalizing p c with
  | nil =>
    obtain ⟨pid, ppath, ppm, psf, pst⟩ := p
    simp only at hf
    subst hf
    simp [sampleOpsFor, run]
  | cons a l ih =>
    have hs := Sample_timed p n a.operation a.description a.data_size
      a.compressed_data_size a.now_wall c m st tc hf hm hst htc
    simp only [sampleOpsFor, List.map_cons, run, step, hs, Option.some_bind]
    have ih2 := ih { p with sample_file :=
        (some (c ++ [StorageProfiler.formatSample st n a.operation
          a.description tc a.data_size a.compressed_data_size])) }
      (c ++ [StorageProfiler.formatSample st n a.operation a.description tc
        a.data_size a.compressed_data_size]) rfl hm
    simp only [sampleOpsFor] at ih2
    rw [ih2]
    simp

theorem run_sampleOps_untimed (l : List SampleCall) (p : StorageProfiler)
    (c : List String) (hf : p.sample_file = some c)
    (hpm : p.profile_measurements = []) :
    run p (sampleOps l) =
      some { p with sample_file := (some (c ++ l.map untimedLine)) } := by
  induction l generalizing p c with
  | nil =>
    obtain ⟨pid, ppath, ppm, psf, pst⟩ := p
    simp only at hf hpm
    subst hf
    subst hpm
    simp [sampleOps, run]
  | cons a l ih =>
    have hm : lookupM p.profile_measurements a.name = none := by
      rw [hpm]
      rfl
    have hs := Sample_untimed p a.name a.operation a.description a.data_size
      a.compressed_data_size a.now_wall c hf hm
    simp only [sampleOps, List.map_cons, run, step, hs, Option.some_bind,
      untimedLine]
    have ih2 := ih { p with sample_file :=
        (some (c ++ [StorageProfiler.formatSample a.now_wall a.name
          a.operation a.description 0 a.data_size a.compressed_data_size])) }
      (c ++ [StorageProfiler.formatSample a.now_wall a.name a.operation
        a.description 0 a.data_size a.compressed_data_size]) rfl hpm
    simp only [sampleOps, untimedLine] at ih2
    rw [ih2]
    simp

theorem session_eq (identifier path : String) (w : ℚ)
    (calls : List SampleCall) :
    session identifier path w calls =
      some (StorageProfiler.FILE_HEADER :: calls.map untimedLine) := by
  unfold session
  have h := run_sampleOps_untimed calls
    ((StorageProfiler.init identifier path).Start w)
    [StorageProfiler.FILE_HEADER] rfl rfl
  rw [h]
  rfl

end AcStore

namespace AcStore

theorem splitCh_ne_nil (sep : Char) (l : List Char) : splitCh sep l ≠ [] := by
  induction l with
  | nil => simp [splitCh]
  | cons c cs ih =>
    by_cases h : c = sep
    · simp [splitCh, h]
    · simp only [splitCh, if_neg h]
      cases hs : splitCh sep cs with
      | nil => simp
      | cons f rest => simp

theorem splitCh_no_sep (sep : Char) (l : List Char) (h : sep ∉ l) :
    splitCh sep l = [l] := by
  induction l with
  | nil => rfl
  | cons c cs ih =>
    have hc : ¬c = sep := fun hc => h (hc ▸ List.mem_cons_self c cs)
    have hcs : sep ∉ cs := fun hm => h (List.mem_cons_of_mem c hm)
    simp only [splitCh, if_neg hc, ih hcs]

theorem splitCh_append_sep (sep : Char) (a b : List Char) (h : sep ∉ a) :
    splitCh sep (a ++ sep :: b) = a :: splitCh sep b := by
  induction a with
  | nil => simp [splitCh]
  | cons c a' ih =>
    have hc : ¬c = sep := fun hc => h (hc ▸ List.mem_cons_self c a')
    have ha' : sep ∉ a' := fun hm => h (List.mem_cons_of_mem c hm)
    simp only [List.cons_append, splitCh, if_neg hc]
    rw [show a'.append (sep :: b) = a' ++ sep :: b from rfl, ih ha']

theorem splitCh_terminated (sep : Char) (bs : List (List Char))
    (h : ∀ b ∈ bs, sep ∉ b) :
    splitCh sep ((bs.map fun b => b ++ [sep]).flatten) = bs ++ [[]] := by
  induction bs with
  | nil => rfl
  | cons b bs' ih =>
    have hb : sep ∉ b := h b (List.mem_cons_self b bs')
    have hbs : ∀ x ∈ bs', sep ∉ x := fun x hx => h x (List.mem_cons_of_mem b hx)
    simp only [List.map_cons, List.flatten_cons, List.append_assoc,
      List.singleton_append]
    rw [splitCh_append_sep sep b _ hb, ih hbs]
    rfl

theorem natDigits_mem (fuel n : Nat) (c : Char)
    (h : c ∈ StorageProfiler.natDigits fuel n) :
    c ∈ ['0', '1', '2', '3', '4', '5', '6', '7', '8', '9'] := by
  induction fuel generalizing n with
  | zero => simp [StorageProfiler.natDigits] at h
  | succ fuel ih =>
    unfold StorageProfiler.natDigits at h
    by_cases h10 : n < 10
    · rw [if_pos h10] at h
      simp only [List.mem_singleton] at h
      subst h
      interval_cases n <;> decide
    · rw [if_neg h10] at h
      rw [List.mem_append] at h
      cases h with
      | inl h => exact ih _ h
      | inr h =>
        simp only [List.mem_singleton] at h
        subst h
        have hd : n % 10 < 10 := Nat.mod_lt _ (by norm_num)
        revert hd
        generalize n % 10 = d
        intro hd
        interval_cases d <;> decide

theorem natStr_tab_free (n : Nat) :
    '\t' ∉ (StorageProfiler.natStr n).data := by
  intro h
  exact absurd (natDigits_mem _ _ _ h) (by decide)

theorem natStr_nl_free (n : Nat) :
    '\n' ∉ (StorageProfiler.natStr n).data := by
  intro h
  exact absurd (natDigits_mem _ _ _ h) (by decide)

theorem TabNlFree_append (s t : String) (hs : TabNlFree s)
    (ht : TabNlFree t) : TabNlFree (s ++ t) := by
  obtain ⟨hs1, hs2⟩ := hs
  obtain ⟨ht1, ht2⟩ := ht
  constructor
  · rw [String.data_append, List.mem_append]
    rintro (h | h)
    · exact hs1 h
    · exact ht1 h
  · rw [String.data_append, List.mem_append]
    rintro (h | h)
    · exact hs2 h
    · exact ht2 h

theorem natStr_TabNlFree (n : Nat) : TabNlFree (StorageProfiler.natStr n) :=
  ⟨natStr_tab_free n, natStr_nl_free n⟩

theorem formatInt_TabNlFree (i : Int) :
    TabNlFree (StorageProfiler.formatInt i) := by
  unfold StorageProfiler.formatInt
  refine TabNlFree_append _ _ ?_ (natStr_TabNlFree _)
  by_cases h : i < 0
  · rw [if_pos h]
    exact ⟨by decide, by decide⟩
  · rw [if_neg h]
    exact ⟨by decide, by decide⟩

theorem replicate_zero_TabNlFree (k : Nat) :
    TabNlFree (String.mk (List.replicate k '0')) := by
  constructor
  · intro h
    have := (List.mem_replicate.mp h).2
    exact absurd this (by decide)
  · intro h
    have := (List.mem_replicate.mp h).2
    exact absurd this (by decide)

theorem formatFixed6_TabNlFree (q : ℚ) :
    TabNlFree (StorageProfiler.formatFixed6 q) := by
  unfold StorageProfiler.formatFixed6
  refine TabNlFree_append _ _ (TabNlFree_append _ _ (TabNlFree_append _ _
    (TabNlFree_append _ _ ?_ (natStr_TabNlFree _)) ?_) ?_)
    (natStr_TabNlFree _)
  · by_cases h : q < 0
    · rw [if_pos h]
      exact ⟨by decide, by decide⟩
    · rw [if_neg h]
      exact ⟨by decide, by decide⟩
  · exact ⟨by decide, by decide⟩
  · exact replicate_zero_TabNlFree _

end AcStore

namespace AcStore

theorem tabJoin_data_cons (s r : String) (rest : List String) :
    (StorageProfiler.tabJoin (s :: r :: rest)).data =
      s.data ++ '\t' :: (StorageProfiler.tabJoin (r :: rest)).data := by
  show (s ++ "\t" ++ StorageProfiler.tabJoin (r :: rest)).data = _
  rw [String.data_append, String.data_append, List.append_assoc]
  rfl

theorem splitCh_tabJoin (fields : List String) (s : String)
    (h : ∀ f ∈ s :: fields, '\t' ∉ f.data) :
    splitCh '\t' (StorageProfiler.tabJoin (s :: fields)).data =
      (s :: fields).map String.data := by
  induction fields generalizing s with
  | nil =>
    have hs : '\t' ∉ s.data := h s (List.mem_cons_self s [])
    show splitCh '\t' s.data = [s.data]
    exact splitCh_no_sep _ _ hs
  | cons r rest ih =>
    have hs : '\t' ∉ s.data := h s (List.mem_cons_self s (r :: rest))
    rw [tabJoin_data_cons, splitCh_append_sep _ _ _ hs,
      ih r (fun f hf => h f (List.mem_cons_of_mem s hf))]
    rfl

theorem tabJoin_nl_free (fields : List String)
    (h : ∀ f ∈ fields, '\n' ∉ f.data) :
    '\n' ∉ (StorageProfiler.tabJoin fields).data := by
  induction fields with
  | nil => simp [StorageProfiler.tabJoin]
  | cons s rest ih =>
    cases rest with
    | nil => exact h s (List.mem_cons_self s [])
    | cons r rest2 =>
      rw [tabJoin_data_cons]
      intro hmem
      rw [List.mem_append] at hmem
      cases hmem with
      | inl hmem => exact h s (List.mem_cons_self s (r :: rest2)) hmem
      | inr hmem =>
        rw [List.mem_cons] at hmem
        cases hmem with
        | inl hmem => exact absurd hmem (by decide)
        | inr hmem =>
          exact ih (fun f hf => h f (List.mem_cons_of_mem s hf)) hmem

theorem formatSample_data (st : ℚ) (n oper desc : String) (tc : ℚ)
    (ds cds : Int) :
    (StorageProfiler.formatSample st n oper desc tc ds cds).data =
      (StorageProfiler.tabJoin [StorageProfiler.formatFixed6 st, n, oper,
        desc, StorageProfiler.formatFixed6 tc, StorageProfiler.formatInt ds,
        StorageProfiler.formatInt cds]).data ++ ['\n'] := by
  unfold StorageProfiler.formatSample
  rw [String.data_append]

theorem FILE_HEADER_data :
    StorageProfiler.FILE_HEADER.data = headerLine.data ++ ['\n'] := by
  decide

theorem headerLine_nl_free : '\n' ∉ headerLine.data := by
  decide

theorem headerLine_seven_fields :
    (splitCh '\t' headerLine.data).length = 7 := by
  decide

end AcStore

namespace AcStore

/-- Claim C1: on a started profiler, `Sample` for a profile name with a
recorded measurement emits a record whose time field is the measurement's
`start_sample_time` and whose processing-time field is its current
`total_cpu_time`, and the call leaves the measurements map (hence the
measurement) unchanged. -/
theorem claim_C1_sample_timed_fields (p : StorageProfiler)
    (n oper desc : String) (ds cds : Int) (w : ℚ) (c : List String)
    (m : CPUTimeMeasurement) (st tc : ℚ) (hf : p.sample_file = some c)
    (hm : lookupM p.profile_measurements n = some m)
    (hst : m.start_sample_time = some st)
    (htc : m.total_cpu_time = some tc) :
    p.Sample n oper desc ds cds w =
      some { p with sample_file :=
        (some (c ++ [StorageProfiler.formatSample st n oper desc tc ds cds])) } :=
  Sample_timed p n oper desc ds cds w c m st tc hf hm hst htc

/-- Witness for C1 at a concrete started and timed profiler. -/
theorem claim_C1_witness :
    (((StorageProfiler.init ("i") ("")).Start 0).StartTiming ("n") 1 2).Sample
        ("n") ("read") ("d") 5 3 99 =
      some { ((StorageProfiler.init ("i") ("")).Start 0).StartTiming ("n") 1 2 with
        sample_file := (some ([StorageProfiler.FILE_HEADER] ++
          [StorageProfiler.formatSample 2 ("n") ("read") ("d") 0 5 3])) } :=
  claim_C1_sample_timed_fields _ ("n") ("read") ("d") 5 3 99
    [StorageProfiler.FILE_HEADER] ⟨some 1, some 2, some 0⟩ 2 0 rfl
    (by with_unfolding_all decide) rfl rfl

end AcStore

namespace AcStore

/-- Claim C2 counterexample: two `StartTiming(n)`/`StopTiming(n)` cycles
with monotonic clock deltas `5 - 0 = 5` and `17 - 10 = 7` leave the
measurement's `total_cpu_time` at `7`, the delta of the last cycle, not at
the sum `12` of the two deltas, because each `StartTiming` resets the
accumulator. -/
theorem claim_C2_counterexample :
    (∃ p, run (StorageProfiler.init ("i") (""))
        (startStopTrace ("n") [(0, 100, 5), (10, 200, 17)]) = some p ∧
      lookupM p.profile_measurements ("n") =
        some ⟨some 10, some 200, some 7⟩) ∧
    (7 : ℚ) ≠ (5 - 0) + (17 - 10) := by
  constructor
  · exact ⟨⟨("i"), (""), [(("n"), ⟨some 10, some 200, some 7⟩)], none, none⟩,
      by with_unfolding_all decide, by with_unfolding_all decide⟩
  · with_unfolding_all decide

/-- Claim C2 as amended: after `k >= 1` repetitions of `StartTiming(n)`
followed by `StopTiming(n)`, the measurement's `total_cpu_time` equals the
elapsed monotonic delta of the last Start/Stop pair alone (each
`StartTiming` resets the accumulator to zero, discarding the earlier
deltas), and its `start_sample_time` is the wall clock of the last
`StartTiming`. -/
theorem claim_C2_amended (p : StorageProfiler) (n : String)
    (x : ℚ × ℚ × ℚ) (l : List (ℚ × ℚ × ℚ)) :
    ∃ p', run p (startStopTrace n (x :: l)) = some p' ∧
      lookupM p'.profile_measurements n =
        some ⟨some (l.getLastD x).1, some (l.getLastD x).2.1,
          some ((l.getLastD x).2.2 - (l.getLastD x).1)⟩ :=
  run_startStopTrace l x p n

/-- Claim C3: on a started profiler, `Sample` for a profile name with no
recorded measurement emits a record whose processing-time field is `0.0`
and whose time field is the wall clock read at the moment of the call. -/
theorem claim_C3_sample_untimed_defaults (p : StorageProfiler)
    (n oper desc : String) (ds cds : Int) (w : ℚ) (c : List String)
    (hf : p.sample_file = some c)
    (hm : lookupM p.profile_measurements n = none) :
    p.Sample n oper desc ds cds w =
      some { p with sample_file :=
        (some (c ++ [StorageProfiler.formatSample w n oper desc 0 ds cds])) } :=
  Sample_untimed p n oper desc ds cds w c hf hm

/-- Witness for C3 at a concrete started, never-timed profiler. -/
theorem claim_C3_witness :
    ((StorageProfiler.init ("i") ("")).Start 0).Sample
        ("n") ("write") ("d") 4 1 77 =
      some { (StorageProfiler.init ("i") ("")).Start 0 with
        sample_file := (some ([StorageProfiler.FILE_HEADER] ++
          [StorageProfiler.formatSample 77 ("n") ("write") ("d") 0 4 1])) } :=
  claim_C3_sample_untimed_defaults _ ("n") ("write") ("d") 4 1 77
    [StorageProfiler.FILE_HEADER] rfl (by with_unfolding_all decide)

/-- Claim C4: `StartTiming(n)` always leaves `n` mapped to a measurement
whose `total_cpu_time` is zero and whose `start_sample_time` is the wall
clock of the call, regardless of the prior state, and leaves every other
profile name's lookup unchanged (so a measurement is created exactly when
`n` was absent). -/
theorem claim_C4_startTiming_resets (p : StorageProfiler) (n : String)
    (sp sw : ℚ) :
    lookupM (p.StartTiming n sp sw).profile_measurements n =
      some ⟨some sp, some sw, some 0⟩ ∧
    ∀ k, k ≠ n → lookupM (p.StartTiming n sp sw).profile_measurements k =
      lookupM p.profile_measurements k :=
  ⟨StartTiming_lookup_self p n sp sw,
   fun k hk => StartTiming_lookup_ne p n k sp sw hk⟩

/-- Witness for C4: restarting an already-timed name discards its state,
and an unrelated name is untouched. -/
theorem claim_C4_witness :
    lookupM (((StorageProfiler.init ("i") ("")).StartTiming ("a") 1 2).StartTiming
        ("a") 3 4).profile_measurements ("a") = some ⟨some 3, some 4, some 0⟩ ∧
    lookupM (((StorageProfiler.init ("i") ("")).StartTiming ("a") 1 2).StartTiming
        ("a") 3 4).profile_measurements ("b") =
      lookupM ((StorageProfiler.init ("i") ("")).StartTiming
        ("a") 1 2).profile_measurements ("b") :=
  ⟨(claim_C4_startTiming_resets _ ("a") 3 4).1,
   (claim_C4_startTiming_resets _ ("a") 3 4).2 ("b") (by decide)⟩

end AcStore

namespace AcStore

/-- Claim C5: any number of consecutive `Sample` calls for a timed profile
name `n`, with no intervening timing calls, emit records that all carry
the same time field `formatFixed6 st` and the same processing-time field
`formatFixed6 tc` taken from the measurement — sampling is a read-only
observation, so the fields are byte-identical across the calls. -/
theorem claim_C5_sample_read_only (l : List SampleCall) (p : StorageProfiler)
    (n : String) (c : List String) (m : CPUTimeMeasurement) (st tc : ℚ)
    (hf : p.sample_file = some c)
    (hm : lookupM p.profile_measurements n = some m)
    (hst : m.start_sample_time = some st)
    (htc : m.total_cpu_time = some tc) :
    run p (sampleOpsFor n l) =
      some { p with sample_file :=
        (some (c ++ l.map fun a =>
          StorageProfiler.formatSample st n a.operation a.description tc
            a.data_size a.compressed_data_size)) } :=
  run_sampleOpsFor l p n c m st tc hf hm hst htc

/-- Witness for C5: two consecutive `Sample` calls with different
metadata reuse the same time and processing-time fields. -/
theorem claim_C5_witness :
    run (((StorageProfiler.init ("i") ("")).Start 0).StartTiming ("n") 1 2)
      (sampleOpsFor ("n") [⟨("x"), ("read"), ("d1"), 1, 2, 50⟩,
        ⟨("y"), ("write"), ("d2"), 3, 4, 60⟩]) =
      some { ((StorageProfiler.init ("i") ("")).Start 0).StartTiming ("n") 1 2 with
        sample_file := (some ([StorageProfiler.FILE_HEADER] ++
          [StorageProfiler.formatSample 2 ("n") ("read") ("d1") 0 1 2,
           StorageProfiler.formatSample 2 ("n") ("write") ("d2") 0 3 4])) } := by
  have h := claim_C5_sample_read_only
    [⟨("x"), ("read"), ("d1"), 1, 2, 50⟩, ⟨("y"), ("write"), ("d2"), 3, 4, 60⟩]
    (((StorageProfiler.init ("i") ("")).Start 0).StartTiming ("n") 1 2)
    ("n") [StorageProfiler.FILE_HEADER] ⟨some 1, some 2, some 0⟩ 2 0 rfl
    (by with_unfolding_all decide) rfl rfl
  rw [h]
  with_unfolding_all rfl

/-- Claim C6: `StopTiming` for a profile name with no measurement is a
silent no-op returning the profiler state unchanged, and `SampleStop` on a
measurement whose monotonic reference was never set returns the
measurement unchanged. -/
theorem claim_C6_stop_noop :
    (∀ (p : StorageProfiler) (n : String) (t : ℚ),
      lookupM p.profile_measurements n = none → p.StopTiming n t = some p) ∧
    (∀ (m : CPUTimeMeasurement) (t : ℚ),
      m.start_cpu_time = none → m.SampleStop t = some m) :=
  ⟨fun p n t h => StopTiming_of_absent p n t h,
   fun m t h => SampleStop_of_start_none m t h⟩

/-- Witness for C6 on a fresh profiler and a fresh measurement. -/
theorem claim_C6_witness :
    (StorageProfiler.init ("i") ("")).StopTiming ("n") 3 =
      some (StorageProfiler.init ("i") ("")) ∧
    CPUTimeMeasurement.init.SampleStop 3 = some CPUTimeMeasurement.init :=
  ⟨claim_C6_stop_noop.1 _ ("n") 3 (by with_unfolding_all decide),
   claim_C6_stop_noop.2 _ 3 rfl⟩

end AcStore

namespace AcStore

theorem untimedLine_data (a : SampleCall) :
    (untimedLine a).data = lineBody a ++ ['\n'] := by
  unfold untimedLine lineBody sampleFields
  exact formatSample_data a.now_wall a.name a.operation a.description 0
    a.data_size a.compressed_data_size

theorem lineBody_nl_free (a : SampleCall) (hn : TabNlFree a.name)
    (ho : TabNlFree a.operation) (hd : TabNlFree a.description) :
    '\n' ∉ lineBody a := by
  unfold lineBody
  apply tabJoin_nl_free
  intro f hf
  simp only [sampleFields, List.mem_cons, List.not_mem_nil, or_false] at hf
  rcases hf with rfl | rfl | rfl | rfl | rfl | rfl | rfl
  · exact (formatFixed6_TabNlFree _).2
  · exact hn.2
  · exact ho.2
  · exact hd.2
  · exact (formatFixed6_TabNlFree _).2
  · exact (formatInt_TabNlFree _).2
  · exact (formatInt_TabNlFree _).2

theorem lineBody_seven_fields (a : SampleCall) (hn : TabNlFree a.name)
    (ho : TabNlFree a.operation) (hd : TabNlFree a.description) :
    (splitCh '\t' (lineBody a)).length = 7 := by
  unfold lineBody
  have h : ∀ f ∈ StorageProfiler.formatFixed6 a.now_wall ::
      [a.name, a.operation, a.description, StorageProfiler.formatFixed6 0,
       StorageProfiler.formatInt a.data_size,
       StorageProfiler.formatInt a.compressed_data_size], '\t' ∉ f.data := by
    intro f hf
    simp only [List.mem_cons, List.not_mem_nil, or_false] at hf
    rcases hf with rfl | rfl | rfl | rfl | rfl | rfl | rfl
    · exact (formatFixed6_TabNlFree _).1
    · exact hn.1
    · exact ho.1
    · exact hd.1
    · exact (formatFixed6_TabNlFree _).1
    · exact (formatInt_TabNlFree _).1
    · exact (formatInt_TabNlFree _).1
  rw [show sampleFields a = StorageProfiler.formatFixed6 a.now_wall ::
    [a.name, a.operation, a.description, StorageProfiler.formatFixed6 0,
     StorageProfiler.formatInt a.data_size,
     StorageProfiler.formatInt a.compressed_data_size] from rfl]
  rw [splitCh_tabJoin _ _ h]
  rfl

end AcStore

namespace AcStore

/-- Claim C7 counterexample: with free-form string arguments a record line
need not have seven tab-separated fields — a `description` containing a
tab yields a line with eight fields.  Splitting the newline-terminated
file at newlines produces the lines followed by one trailing empty chunk,
so the lines of the file are `dropLast` of the split (the same set the
amended theorem calls `bodies`), and among them is a line whose tab-split
has eight fields, not seven. -/
theorem claim_C7_counterexample :
    ∃ contents, session ("i") ("") 0
        [⟨("n"), ("op"), ("a\tb"), 1, 2, 3⟩] = some contents ∧
      ∃ b ∈ (splitCh '\n' (fileChars contents)).dropLast,
        (splitCh '\t' b).length = 8 := by
  refine ⟨[StorageProfiler.FILE_HEADER,
    StorageProfiler.formatSample 3 ("n") ("op") ("a\tb") 0 1 2], ?_, ?_⟩
  · with_unfolding_all decide
  · with_unfolding_all decide

/-- Claim C7 as amended: for a `Start()`, N `Sample(...)` calls, `Stop()`
session whose string arguments contain no tab and no newline characters,
the decompressed output file consists of exactly N+1 newline-terminated
lines, the first being exactly the fixed header literal, and every line
has exactly 7 tab-separated fields. -/
theorem claim_C7_amended (identifier path : String) (w : ℚ)
    (calls : List SampleCall)
    (h : ∀ a ∈ calls, TabNlFree a.name ∧ TabNlFree a.operation ∧
      TabNlFree a.description) :
    ∃ contents, session identifier path w calls = some contents ∧
      ∃ bodies : List (List Char),
        splitCh '\n' (fileChars contents) = bodies ++ [[]] ∧
        bodies.length = calls.length + 1 ∧
        bodies.head? = some headerLine.data ∧
        ∀ b ∈ bodies, (splitCh '\t' b).length = 7 := by
  refine ⟨StorageProfiler.FILE_HEADER :: calls.map untimedLine,
    session_eq identifier path w calls,
    headerLine.data :: calls.map lineBody, ?_, ?_, ?_, ?_⟩
  · have hmapeq : (StorageProfiler.FILE_HEADER :: calls.map untimedLine).map
        String.data =
        (headerLine.data :: calls.map lineBody).map (fun b => b ++ ['\n']) := by
      rw [List.map_cons, List.map_cons, FILE_HEADER_data, List.map_map,
        List.map_map]
      have hpt : List.map (String.data ∘ untimedLine) calls =
          List.map ((fun b => b ++ ['\n']) ∘ lineBody) calls :=
        List.map_congr_left fun a _ => untimedLine_data a
      rw [hpt]
    unfold fileChars
    rw [hmapeq]
    apply splitCh_terminated
    intro b hb
    rw [List.mem_cons] at hb
    cases hb with
    | inl hb =>
      subst hb
      exact headerLine_nl_free
    | inr hb =>
      obtain ⟨a, ha, rfl⟩ := List.mem_map.mp hb
      obtain ⟨hn, ho, hd⟩ := h a ha
      exact lineBody_nl_free a hn ho hd
  · simp
  · rfl
  · intro b hb
    rw [List.mem_cons] at hb
    cases hb with
    | inl hb =>
      subst hb
      exact headerLine_seven_fields
    | inr hb =>
      obtain ⟨a, ha, rfl⟩ := List.mem_map.mp hb
      obtain ⟨hn, ho, hd⟩ := h a ha
      exact lineBody_seven_fields a hn ho hd

/-- Witness for C7 at a concrete one-sample session with tab-free and
newline-free arguments. -/
theorem claim_C7_witness :
    ∃ contents, session ("i") ("") 0
        [⟨("n"), ("op"), ("d"), 1, 2, 3⟩] = some contents ∧
      ∃ bodies : List (List Char),
        splitCh '\n' (fileChars contents) = bodies ++ [[]] ∧
        bodies.length = ([⟨("n"), ("op"), ("d"), 1, 2, 3⟩] :
          List SampleCall).length + 1 ∧
        bodies.head? = some headerLine.data ∧
        ∀ b ∈ bodies, (splitCh '\t' b).length = 7 :=
  claim_C7_amended ("i") ("") 0 [⟨("n"), ("op"), ("d"), 1, 2, 3⟩]
    (by intro a ha
        simp only [List.mem_singleton] at ha
        subst ha
        refine ⟨⟨?_, ?_⟩, ⟨?_, ?_⟩, ⟨?_, ?_⟩⟩ <;> decide)

end AcStore

namespace AcStore

/-- Claim C8: `Stop` clears the stream reference to absent; `Sample` with
an absent stream reference fails (raises) instead of silently succeeding;
and a successful `Sample` call's only effect on the profiler is exactly
one append to the stream. -/
theorem claim_C8_stream_lifecycle :
    (∀ (p p' : StorageProfiler) (content : List String),
        p.Stop = some (p', content) → p'.sample_file = none) ∧
    (∀ (p : StorageProfiler) (n oper desc : String) (ds cds : Int) (w : ℚ),
        p.sample_file = none → p.Sample n oper desc ds cds w = none) ∧
    (∀ (p p' : StorageProfiler) (n oper desc : String) (ds cds : Int)
        (w : ℚ), p.Sample n oper desc ds cds w = some p' →
          ∃ c line, p.sample_file = some c ∧
            p' = { p with sample_file := some (c ++ [line]) }) := by
  refine ⟨?_, ?_, ?_⟩
  · intro p p' content h
    unfold StorageProfiler.Stop at h
    cases hf : p.sample_file with
    | none =>
      rw [hf] at h
      exact absurd h (by simp)
    | some c =>
      rw [hf] at h
      have h2 := Option.some.inj h
      injection h2 with h3 h4
      subst h3
      rfl
  · intro p n oper desc ds cds w hf
    exact Sample_closed p n oper desc ds cds w hf
  · intro p p' n oper desc ds cds w h
    exact Sample_some_inv p p' n oper desc ds cds w h

/-- Witness for C8 at concrete stopped, unstarted and started profilers. -/
theorem claim_C8_witness :
    (⟨("i"), (""), [], none, some 0⟩ : StorageProfiler).sample_file = none ∧
    (StorageProfiler.init ("i") ("")).Sample ("n") ("o") ("d") 1 2 3 = none ∧
    (∃ c line,
      ((StorageProfiler.init ("i") ("")).Start 0).sample_file = some c ∧
      ({ (StorageProfiler.init ("i") ("")).Start 0 with sample_file :=
        (some ([StorageProfiler.FILE_HEADER] ++
          [StorageProfiler.formatSample 3 ("n") ("o") ("d") 0 1 2])) } :
        StorageProfiler) =
        { (StorageProfiler.init ("i") ("")).Start 0 with
          sample_file := some (c ++ [line]) }) :=
  ⟨claim_C8_stream_lifecycle.1 ((StorageProfiler.init ("i") ("")).Start 0)
      ⟨("i"), (""), [], none, some 0⟩ [StorageProfiler.FILE_HEADER]
      (by with_unfolding_all decide),
   claim_C8_stream_lifecycle.2.1 (StorageProfiler.init ("i") (""))
      ("n") ("o") ("d") 1 2 3 rfl,
   claim_C8_stream_lifecycle.2.2 ((StorageProfiler.init ("i") ("")).Start 0)
      _ ("n") ("o") ("d") 1 2 3 (by with_unfolding_all decide)⟩

/-- Claim C9: in every profiler state reachable by running a sequence of
calls from a fresh profiler, every measurement stored in the measurements
map has all three attributes set (never the initial `None` values), and
hence the timed branch of `Sample` never reads an unset attribute: with
the stream open, `Sample` for any stored profile name succeeds. -/
theorem claim_C9_measurements_invariant (identifier path : String)
    (ops : List Op) (p : StorageProfiler)
    (h : run (StorageProfiler.init identifier path) ops = some p) :
    (∀ n m, lookupM p.profile_measurements n = some m →
      (∃ s, m.start_cpu_time = some s) ∧
      (∃ st, m.start_sample_time = some st) ∧
      (∃ tc, m.total_cpu_time = some tc)) ∧
    (∀ (n oper desc : String) (ds cds : Int) (w : ℚ)
        (m : CPUTimeMeasurement) (c : List String),
      lookupM p.profile_measurements n = some m →
      p.sample_file = some c →
      (p.Sample n oper desc ds cds w).isSome = true) := by
  have hOK := run_stateOK ops _ p (stateOK_init identifier path) h
  constructor
  · intro n m hm
    obtain ⟨h1, h2, h3⟩ := hOK n m hm
    exact ⟨Option.isSome_iff_exists.mp h1, Option.isSome_iff_exists.mp h2,
      Option.isSome_iff_exists.mp h3⟩
  · intro n oper desc ds cds w m c hm hf
    obtain ⟨h1, h2, h3⟩ := hOK n m hm
    obtain ⟨st, hst⟩ := Option.isSome_iff_exists.mp h2
    obtain ⟨tc, htc⟩ := Option.isSome_iff_exists.mp h3
    rw [Sample_timed p n oper desc ds cds w c m st tc hf hm hst htc]
    rfl

/-- Witness for C9 after a concrete `Start`; `StartTiming` trace. -/
theorem claim_C9_witness :
    ((((StorageProfiler.init ("i") ("")).Start 0).StartTiming ("n") 1 2).Sample
        ("n") ("o") ("d") 1 2 9).isSome = true :=
  (claim_C9_measurements_invariant ("i") ("")
      [Op.start 0, Op.startTiming ("n") 1 2]
      (((StorageProfiler.init ("i") ("")).Start 0).StartTiming ("n") 1 2)
      (by with_unfolding_all decide)).2
    ("n") ("o") ("d") 1 2 9 ⟨some 1, some 2, some 0⟩
    [StorageProfiler.FILE_HEADER] (by with_unfolding_all decide) rfl

/-- Claim C10: `SampleStop` keeps the monotonic reference, so after one
`StartTiming(n)` at monotonic time `sp`, a sequence of `StopTiming(n)`
calls at monotonic times `ts` leaves `total_cpu_time` equal to the sum of
the deltas `t - sp`, every one measured from the same original start
instant. -/
theorem claim_C10_repeated_stops (p : StorageProfiler) (n : String)
    (sp sw : ℚ) (ts : List ℚ) :
    ∃ p', run (p.StartTiming n sp sw) (stopsTrace n ts) = some p' ∧
      lookupM p'.profile_measurements n =
        some ⟨some sp, some sw, some ((ts.map fun t => t - sp).sum)⟩ := by
  obtain ⟨p', h1, h2⟩ := run_stopsTrace ts (p.StartTiming n sp sw) n sp sw 0
    (StartTiming_lookup_self p n sp sw)
  refine ⟨p', h1, ?_⟩
  rw [h2]
  norm_num

end AcStore
